import Mathlib

/-!
Verification of the name-resolution / sender-validation / extraction core of
the MCP calendar and time-entry servers.

Python strings are modelled as lists of characters (`List Char`); machine
floats appearing only as JSON confidence values are modelled as rationals
(the comparisons at stake, against the literals 0.9 and 0.95, are exact for
every input the claims mention); fallible Python functions return `Except`,
and every function that may call an external backend additionally returns a
record of the external calls it made, so that "no backend call" is a
provable statement.  AI-backend responses are inputs (the parsed JSON,
or a parse/backend failure), since the backend is outside the system.
-/

deriving instance DecidableEq for Except

/-- A string literal as a list of characters. -/
def cl (s : String) : List Char := s.data

/-- The whitespace test used by Python's str.split / str.strip
(ASCII whitespace; the directory data in this system is sanitized to
codepoints at most 255 before any resolution runs). -/
def pyIsSpace (c : Char) : Bool :=
  c == ' ' || c == '\t' || c == '\n' || c == '\r' || c == '\x0b' || c == '\x0c'

/-- Python str.strip(): drop leading and trailing whitespace. -/
def pyStrip (s : List Char) : List Char :=
  ((s.dropWhile pyIsSpace).reverse.dropWhile pyIsSpace).reverse

/-- Accumulator-based worker for Python str.split() with no separator:
split on whitespace runs, discarding empty tokens.  The accumulator holds
the characters of the token currently being read, in reverse. -/
def pySplitAux : List Char → List Char → List (List Char)
  | [], acc => if acc.isEmpty then [] else [acc.reverse]
  | c :: cs, acc =>
    if pyIsSpace c then
      if acc.isEmpty then pySplitAux cs [] else acc.reverse :: pySplitAux cs []
    else
      pySplitAux cs (c :: acc)

/-- Python str.split() with no separator. -/
def pySplit (s : List Char) : List (List Char) := pySplitAux s []

/-- Python ' '.join(tokens). -/
def joinSpace (tokens : List (List Char)) : List Char :=
  List.intercalate [' '] tokens

/-- Python s.lower() (character-wise lowering). -/
def pyLower (s : List Char) : List Char := s.map Char.toLower

/-- The normalization both servers apply to display names and name queries:
a faithful rendering of the expression
joinSpace-of-split-of-strip-of-lower from the source. -/
def normalizeName (s : List Char) : List Char :=
  joinSpace (pySplit (pyStrip (pyLower s)))

/-- One directory identity as the servers see it: a display name and an
email (absent upstream emails are already collapsed to the empty string by
the fetch helper, which is what the Python code's or-empty-string guard
produces). -/
structure User where
  name : List Char
  email : List Char
deriving DecidableEq, Repr

/-- p is a leading segment of s (character-wise equality). -/
def leadsList : List Char → List Char → Bool
  | [], _ => true
  | _ :: _, [] => false
  | a :: ps, b :: ss => a == b && leadsList ps ss

/-- Python's substring test p in s: p occurs contiguously inside s. -/
def occursIn (p s : List Char) : Bool :=
  leadsList p s ||
    match s with
    | [] => false
    | _ :: rest => occursIn p rest

/-- The exact-match pass of the deterministic resolver: first candidate
whose normalized display name equals the (already normalized) query. -/
def findExact (q : List Char) : List User → Option User
  | [] => none
  | u :: us => if normalizeName u.name = q then some u else findExact q us

/-- The substring pass of the deterministic resolver, carrying the current
best candidate.  A candidate is admitted when the normalized query is a
substring of its normalized name or vice versa; it replaces the current
best exactly when its normalized name is strictly longer than the current
best's RAW display name (the source compares len of the normalized new
name against len of target_user's unnormalized name field). -/
def substringPass (q : List Char) : List User → Option User → Option User
  | [], best => best
  | u :: us, none =>
    if occursIn q (normalizeName u.name) || occursIn (normalizeName u.name) q then
      substringPass q us (some u)
    else substringPass q us none
  | u :: us, some t =>
    if occursIn q (normalizeName u.name) || occursIn (normalizeName u.name) q then
      if (normalizeName u.name).length > t.name.length then
        substringPass q us (some u)
      else substringPass q us (some t)
    else substringPass q us (some t)

/-- The deterministic name resolver shared by check_availability and
book_meeting: exact pass first, substring pass only when the exact pass
found nothing, `none` meaning the ValueError rejection. -/
def resolveUserByName (users : List User) (query : List Char) : Option User :=
  let q := normalizeName query
  match findExact q users with
  | some u => some u
  | none => substringPass q users none

/-- Modelled from the spec (§4.2 step 4), for comparison with the code:
the substring pass as the spec words it, preferring the candidate with the
longest NORMALIZED name, first-seen winning ties. -/
def specTieBreak (q : List Char) : List User → Option User → Option User
  | [], best => best
  | u :: us, none =>
    if occursIn q (normalizeName u.name) || occursIn (normalizeName u.name) q then
      specTieBreak q us (some u)
    else specTieBreak q us none
  | u :: us, some t =>
    if occursIn q (normalizeName u.name) || occursIn (normalizeName u.name) q then
      if (normalizeName u.name).length > (normalizeName t.name).length then
        specTieBreak q us (some u)
      else specTieBreak q us (some t)
    else specTieBreak q us (some t)

/-- Modelled from the spec (§4.2): exact pass, then the spec's
longest-normalized-name substring pass. -/
def specResolve (users : List User) (query : List Char) : Option User :=
  let q := normalizeName query
  match findExact q users with
  | some u => some u
  | none => specTieBreak q users none

/-- Outcome of one call to the text-completion backend, as the Python code
observes it after its own JSON handling: a successfully parsed response
object, a json.JSONDecodeError on the returned text, or any other raised
exception from the call itself. -/
inductive AIOutcome (α : Type) where
  | ok (resp : α)
  | parseError
  | backendError
deriving DecidableEq, Repr

/-- Python truthiness of an optional string together with the
strip-emptiness test: models the guard not-s-or-not-s-strip
(absent value, empty string, or whitespace-only string). -/
def isBlankOpt : Option (List Char) → Bool
  | none => true
  | some s => s.isEmpty || (pyStrip s).isEmpty

/-- Python's x or y for an optional string x and fallback y: the fallback
is used when x is absent (None) or empty (falsy). -/
def pyOrStr (a : Option (List Char)) (b : List Char) : List Char :=
  match a with
  | none => b
  | some s => if s.isEmpty then b else s

/-- Python s.lower().strip() as applied to email values. -/
def pyLowerStrip (s : List Char) : List Char := pyStrip (pyLower s)

/-- The name-matching confidence threshold min_confidence_name = 0.9. -/
def minConfidenceName : ℚ := 9 / 10

/-- The sender-validation confidence threshold min_confidence_sender = 0.95. -/
def minConfidenceSender : ℚ := 95 / 100

/-- The parsed JSON response of the name-matching backend, projected onto
the fields the code reads: whether result.get("match") yields a non-null
value, result.get("confidence", 0.0), and the two optional
identity fields read on acceptance. -/
structure NameResp where
  matchPresent : Bool
  confidence : ℚ
  name : Option (List Char)
  email : Option (List Char)
deriving DecidableEq, Repr

/-- The user dict built on acceptance: name and email are taken verbatim
from the response and may be null. -/
structure MatchedUser where
  name : Option (List Char)
  email : Option (List Char)
deriving DecidableEq, Repr

/-- Errors raised by the AI matchers and validators (each is a Python
ValueError carrying remediation text). -/
inductive AIError where
  | aiFailure
  | notConfigured
deriving DecidableEq, Repr

/-- CalendarAIHelper.match_user_name.  The second component records
whether the completion backend was called.  Blank or absent query, or an
empty pool, short-circuit to no-match before the backend is reached; a
backend exception or a JSON parse failure is raised as ValueError (no
fallback); otherwise acceptance requires a non-null "match" field and a
confidence not below min_confidence_name. -/
def match_user_name (ai : AIOutcome NameResp) (query_name : Option (List Char))
    (users_list : List User) : Except AIError (Option MatchedUser) × Bool :=
  if isBlankOpt query_name then (.ok none, false)
  else if users_list.isEmpty then (.ok none, false)
  else
    match ai with
    | .backendError => (.error .aiFailure, true)
    | .parseError => (.error .aiFailure, true)
    | .ok r =>
      if !r.matchPresent then (.ok none, true)
      else if r.confidence < minConfidenceName then (.ok none, true)
      else (.ok (some ⟨r.name, r.email⟩), true)

/-- ai_match_user_name from the time-entry server: identical logic, but
the module-level client may be unconfigured, which raises before anything
else; the blank-query and empty-pool guards are a single combined test. -/
def ai_match_user_name (configured : Bool) (ai : AIOutcome NameResp)
    (query_name : Option (List Char)) (users_list : List User) :
    Except AIError (Option MatchedUser) × Bool :=
  if !configured then (.error .notConfigured, false)
  else if isBlankOpt query_name || users_list.isEmpty then (.ok none, false)
  else
    match ai with
    | .backendError => (.error .aiFailure, true)
    | .parseError => (.error .aiFailure, true)
    | .ok r =>
      if !r.matchPresent then (.ok none, true)
      else if r.confidence < minConfidenceName then (.ok none, true)
      else (.ok (some ⟨r.name, r.email⟩), true)

/-- The parsed JSON response of the sender-validation backend, projected
onto the fields the code reads: result.get("valid", False),
result.get("confidence", 0.0), and the optional identity fields. -/
structure SenderResp where
  valid : Bool
  confidence : ℚ
  name : Option (List Char)
  email : Option (List Char)
deriving DecidableEq, Repr

/-- Errors raised by CalendarAIHelper.validate_sender. -/
inductive SenderError where
  | emailRequired
  | emailNotFound
  | nameMismatch
deriving DecidableEq, Repr

/-- CalendarAIHelper.validate_sender.  The second component records
whether the completion backend was called.  Order of the source: the
mandatory-email guard, the deterministic linear scan for the email, the
blank-name shortcut, then the AI consistency check whose explicit
rejection raises and whose parse/backend failures degrade to the
email-matched identity. -/
def validate_sender (ai : AIOutcome SenderResp) (sender_name : Option (List Char))
    (sender_email : Option (List Char)) (users_list : List User) :
    Except SenderError User × Bool :=
  if isBlankOpt sender_email then (.error .emailRequired, false)
  else
    let se := pyLowerStrip (sender_email.getD [])
    match users_list.find? (fun u => pyLowerStrip u.email == se) with
    | none => (.error .emailNotFound, false)
    | some byEmail =>
      if isBlankOpt sender_name then (.ok byEmail, false)
      else
        match ai with
        | .backendError => (.ok byEmail, true)
        | .parseError => (.ok byEmail, true)
        | .ok r =>
          if !r.valid || r.confidence < minConfidenceSender then
            (.error .nameMismatch, true)
          else
            (.ok ⟨pyOrStr r.name byEmail.name, pyOrStr r.email (sender_email.getD [])⟩,
              true)

/-- The parsed JSON response of the extraction backend, projected onto the
fields the code reads with result.get: the four required attributes, the
two optional ones, and the backend's own self-reported missing_fields list
(absent defaults to the empty list). -/
structure ExtractResp where
  date : Option (List Char)
  client : Option (List Char)
  description : Option (List Char)
  hours : Option ℚ
  project : Option (List Char)
  task : Option (List Char)
  missing_fields : Option (List (List Char))
deriving DecidableEq, Repr

/-- The record validate_and_extract_time_entry returns. -/
structure ExtractedTimeEntry where
  date : Option (List Char)
  client : Option (List Char)
  description : Option (List Char)
  hours : Option ℚ
  project : Option (List Char)
  task : Option (List Char)
  missing_fields : List (List Char)
deriving DecidableEq, Repr

/-- Python truthiness of an optional string: false exactly for None and
the empty string (used by the required-field checks, where an empty string
also counts as missing). -/
def strTruthy : Option (List Char) → Bool
  | none => false
  | some s => !s.isEmpty

/-- The four required field names in the order the code appends them. -/
def requiredFields : List (List Char) :=
  [cl "date", cl "client", cl "description", cl "hours"]

/-- The local recomputation of the missing-field list: the three string
fields use Python falsiness (None or empty string is missing), while
hours uses an is-None test (so an extracted 0.0 is not missing). -/
def recomputeMissing (date client description : Option (List Char))
    (hours : Option ℚ) : List (List Char) :=
  (if !strTruthy date then [cl "date"] else []) ++
  (if !strTruthy client then [cl "client"] else []) ++
  (if !strTruthy description then [cl "description"] else []) ++
  (if hours.isNone then [cl "hours"] else [])

/-- TimeEntryAIHelper.validate_and_extract_time_entry.  The second
component records whether the completion backend was called.  A blank
query returns the all-missing record without a call; a backend or parse
failure raises ValueError; otherwise the record is first assembled with
the backend's self-reported missing_fields and that field is then
overwritten with the locally recomputed list, mirroring the source's two
assignments. -/
def validate_and_extract_time_entry (ai : AIOutcome ExtractResp)
    (query : Option (List Char)) : Except AIError ExtractedTimeEntry × Bool :=
  if isBlankOpt query then
    (.ok ⟨none, none, none, none, none, none, requiredFields⟩, false)
  else
    match ai with
    | .backendError => (.error .aiFailure, true)
    | .parseError => (.error .aiFailure, true)
    | .ok r =>
      let extracted : ExtractedTimeEntry :=
        ⟨r.date, r.client, r.description, r.hours, r.project, r.task,
          r.missing_fields.getD []⟩
      let missing :=
        recomputeMissing extracted.date extracted.client extracted.description
          extracted.hours
      (.ok { extracted with missing_fields := missing }, true)

/-- ai_extract_time_entry from the time-entry server: the module-level
client may be unconfigured, which raises first; the rest is the same
logic as the helper class. -/
def ai_extract_time_entry (configured : Bool) (ai : AIOutcome ExtractResp)
    (query : Option (List Char)) : Except AIError ExtractedTimeEntry × Bool :=
  if !configured then (.error .notConfigured, false)
  else validate_and_extract_time_entry ai query

/-- A Python value as returned across the MCP boundary: strings, numbers,
booleans, None, and the three container shapes sanitize_unicode walks. -/
inductive PyValue where
  | str : List Char → PyValue
  | intV : Int → PyValue
  | floatV : ℚ → PyValue
  | boolV : Bool → PyValue
  | noneV : PyValue
  | list : List PyValue → PyValue
  | tuple : List PyValue → PyValue
  | dict : List (PyValue × PyValue) → PyValue
deriving Repr

/-- The per-character replacement: codepoints above 255 become the
placeholder glyph. -/
def sanitizeChar (c : Char) : Char := if c.toNat ≤ 255 then c else '?'

mutual
/-- sanitize_unicode from the calendar server: character filtering on
strings, structural recursion through dicts (keys and values), lists and
tuples, identity on every other value. -/
def sanitize_unicode : PyValue → PyValue
  | .str s => .str (s.map sanitizeChar)
  | .intV n => .intV n
  | .floatV q => .floatV q
  | .boolV b => .boolV b
  | .noneV => .noneV
  | .list xs => .list (sanitizeItems xs)
  | .tuple xs => .tuple (sanitizeItems xs)
  | .dict es => .dict (sanitizeEntries es)

/-- sanitize_unicode mapped over the items of a list or tuple. -/
def sanitizeItems : List PyValue → List PyValue
  | [] => []
  | x :: xs => sanitize_unicode x :: sanitizeItems xs

/-- sanitize_unicode mapped over the key-value pairs of a dict. -/
def sanitizeEntries : List (PyValue × PyValue) → List (PyValue × PyValue)
  | [] => []
  | (k, v) :: es => (sanitize_unicode k, sanitize_unicode v) :: sanitizeEntries es
end

mutual
/-- All strings reachable in a value, at any nesting depth, in
left-to-right order (dict keys before their values). -/
def allStrings : PyValue → List (List Char)
  | .str s => [s]
  | .intV _ => []
  | .floatV _ => []
  | .boolV _ => []
  | .noneV => []
  | .list xs => allStringsItems xs
  | .tuple xs => allStringsItems xs
  | .dict es => allStringsEntries es

/-- allStrings over the items of a list or tuple. -/
def allStringsItems : List PyValue → List (List Char)
  | [] => []
  | x :: xs => allStrings x ++ allStringsItems xs

/-- allStrings over the key-value pairs of a dict. -/
def allStringsEntries : List (PyValue × PyValue) → List (List Char)
  | [] => []
  | (k, v) :: es => allStrings k ++ allStrings v ++ allStringsEntries es
end

/-- One side-effecting call against the calendar/directory provider. -/
inductive ProviderCall where
  | tokenFetch
  | userListFetch
  | eventCreate
deriving DecidableEq, Repr

/-- The external world as book_meeting can observe it: the result of
datetime.fromisoformat on a string (None meaning the constructor raised),
rendered as a timestamp so that datetime comparison and subtraction are
integer comparison and subtraction in seconds; the user list the
_fetch_users_list helper would return; and the directory id
get_user_id_by_email would resolve an email to (None meaning it raises). -/
structure BookEnv where
  parseDT : List Char → Option Int
  users : List User
  userId : List Char → Option (List Char)

/-- Errors book_meeting raises before or during provider interaction. -/
inductive BookError where
  | invalidDatetimeFormat
  | endNotAfterStart
  | senderNotFound
  | userNotFound
  | userIdNotFound
deriving DecidableEq, Repr

/-- The fields of the created event that the code itself assembles
(provider-echoed fields are not modelled): the sanitized-input-derived
subject, the meeting body with the sender attribution prepended, the
attendee email list always led by the sender, and the metadata block. -/
structure BookResult where
  subject : List Char
  meetingBody : List Char
  attendeeEmails : List (List Char)
  senderName : List Char
  senderEmail : List Char
  durationMinutes : Int
deriving DecidableEq, Repr

/-- The sender attribution line prepended into every meeting body. -/
def senderInfoLine (name email : List Char) : List Char :=
  cl "<p><strong>Booked by:</strong> " ++ name ++ cl " (" ++ email ++ cl ")</p>"

/-- The attendee list: the sender always first as a required attendee,
then the supplied attendees except those equal to the sender email up to
lowercasing. -/
def buildAttendees (senderEmail : List Char) (attendees : List (List Char)) :
    List (List Char) :=
  senderEmail :: attendees.filter (fun e => !(pyLower e == pyLower senderEmail))

/-- book_meeting from the calendar server, with the sequence of provider
calls it performs as the second component.  The datetime parsing and the
end-after-start check come first; only then is the user list fetched
(token fetch plus directory read), the sender resolved by name, the
target user resolved by name when the argument carries no at-sign, the
token re-fetched, the target's directory id resolved (itself a token
fetch plus directory read), and finally the event created. -/
def book_meeting (env : BookEnv) (user_email subject start_datetime end_datetime
    sender_name : List Char) (attendees : List (List Char)) (body : List Char) :
    Except BookError BookResult × List ProviderCall :=
  match env.parseDT start_datetime with
  | none => (.error .invalidDatetimeFormat, [])
  | some startTs =>
    match env.parseDT end_datetime with
    | none => (.error .invalidDatetimeFormat, [])
    | some endTs =>
      if endTs ≤ startTs then (.error .endNotAfterStart, [])
      else
        let fetchTrace : List ProviderCall := [.tokenFetch, .userListFetch]
        match resolveUserByName env.users sender_name with
        | none => (.error .senderNotFound, fetchTrace)
        | some senderUser =>
          let target? : Except BookError (List Char) :=
            if user_email.contains '@' then .ok user_email
            else
              match resolveUserByName env.users user_email with
              | none => .error .userNotFound
              | some tu => .ok tu.email
          match target? with
          | .error e => (.error e, fetchTrace)
          | .ok targetEmail =>
            let preCreate : List ProviderCall :=
              fetchTrace ++ [.tokenFetch, .tokenFetch, .userListFetch]
            match env.userId targetEmail with
            | none => (.error .userIdNotFound, preCreate)
            | some _ =>
              let meetingBody :=
                senderInfoLine senderUser.name senderUser.email ++
                  (if body.isEmpty then [] else cl "<br>" ++ body)
              (.ok
                { subject := subject
                  meetingBody := meetingBody
                  attendeeEmails := buildAttendees senderUser.email attendees
                  senderName := senderUser.name
                  senderEmail := senderUser.email
                  durationMinutes := (endTs - startTs) / 60 },
                preCreate ++ [.eventCreate])

/-- C1: evaluation of the name matcher at the claim's boundary inputs.
The claim says every response with confidence at most 0.9 is rejected and
a named match at 0.9001 is accepted; the code instead accepts a response
carrying a non-null "match" field at confidence exactly 0.9 (its test is
confidence strictly below 0.9), and rejects the documented success format,
which has no "match" field, even at confidence 0.9001.  Below-threshold
responses are rejected as claimed, and the time-entry server's copy of
the matcher behaves the same way at the boundary. -/
theorem match_user_name_boundary_eval :
    match_user_name
        (.ok ⟨true, 9 / 10, some (cl "Ryan Botindari"), some (cl "ryan@x.com")⟩)
        (some (cl "ryan")) [⟨cl "Ryan Botindari", cl "ryan@x.com"⟩]
      = (.ok (some ⟨some (cl "Ryan Botindari"), some (cl "ryan@x.com")⟩), true)
    ∧ match_user_name
        (.ok ⟨false, 9001 / 10000, some (cl "Ryan Botindari"), some (cl "ryan@x.com")⟩)
        (some (cl "ryan")) [⟨cl "Ryan Botindari", cl "ryan@x.com"⟩]
      = (.ok none, true)
    ∧ match_user_name
        (.ok ⟨true, 8 / 10, some (cl "Ryan Botindari"), some (cl "ryan@x.com")⟩)
        (some (cl "ryan")) [⟨cl "Ryan Botindari", cl "ryan@x.com"⟩]
      = (.ok none, true)
    ∧ ai_match_user_name true
        (.ok ⟨true, 9 / 10, some (cl "Ryan Botindari"), some (cl "ryan@x.com")⟩)
        (some (cl "ryan")) [⟨cl "Ryan Botindari", cl "ryan@x.com"⟩]
      = (.ok (some ⟨some (cl "Ryan Botindari"), some (cl "ryan@x.com")⟩), true) := by
  have h90 : ¬ ((9 / 10 : ℚ) < minConfidenceName) := by norm_num [minConfidenceName]
  have h9001 : ¬ ((9001 / 10000 : ℚ) < minConfidenceName) := by
    norm_num [minConfidenceName]
  have h8 : ((8 / 10 : ℚ) < minConfidenceName) := by norm_num [minConfidenceName]
  have hb : isBlankOpt (some (cl "ryan")) = false := by decide
  refine ⟨?_, ?_, ?_, ?_⟩
  · simp [match_user_name, h90, hb]
  · simp [match_user_name, hb]
  · simp [match_user_name, h8, hb]
  · simp [ai_match_user_name, h90, hb]

/-- C2: evaluation of the sender validator at the claim's boundary
inputs.  The claim says a response with confidence exactly 0.95 raises a
validation error; the code instead accepts it (its test is confidence
strictly below 0.95).  Responses below the threshold, and responses with
valid false, are rejected as claimed, and 0.9501 is accepted as
claimed. -/
theorem validate_sender_boundary_eval :
    validate_sender (.ok ⟨true, 95 / 100, none, none⟩) (some (cl "Ryan"))
        (some (cl "ryan@x.com")) [⟨cl "Ryan Botindari", cl "ryan@x.com"⟩]
      = (.ok ⟨cl "Ryan Botindari", cl "ryan@x.com"⟩, true)
    ∧ validate_sender (.ok ⟨true, 9499 / 10000, none, none⟩) (some (cl "Ryan"))
        (some (cl "ryan@x.com")) [⟨cl "Ryan Botindari", cl "ryan@x.com"⟩]
      = (.error .nameMismatch, true)
    ∧ validate_sender (.ok ⟨true, 9501 / 10000, none, none⟩) (some (cl "Ryan"))
        (some (cl "ryan@x.com")) [⟨cl "Ryan Botindari", cl "ryan@x.com"⟩]
      = (.ok ⟨cl "Ryan Botindari", cl "ryan@x.com"⟩, true)
    ∧ validate_sender (.ok ⟨false, 99 / 100, none, none⟩) (some (cl "Ryan"))
        (some (cl "ryan@x.com")) [⟨cl "Ryan Botindari", cl "ryan@x.com"⟩]
      = (.error .nameMismatch, true) := by
  have h95 : ¬ ((95 / 100 : ℚ) < minConfidenceSender) := by
    norm_num [minConfidenceSender]
  have h9499 : ((9499 / 10000 : ℚ) < minConfidenceSender) := by
    norm_num [minConfidenceSender]
  have h9501 : ¬ ((9501 / 10000 : ℚ) < minConfidenceSender) := by
    norm_num [minConfidenceSender]
  have hb : isBlankOpt (some (cl "Ryan")) = false := by decide
  have hbe : isBlankOpt (some (cl "ryan@x.com")) = false := by decide
  have hf : ([⟨cl "Ryan Botindari", cl "ryan@x.com"⟩] : List User).find?
      (fun u => pyLowerStrip u.email == pyLowerStrip ((some (cl "ryan@x.com")).getD []))
      = some ⟨cl "Ryan Botindari", cl "ryan@x.com"⟩ := by decide
  refine ⟨?_, ?_, ?_, ?_⟩
  · simp [validate_sender, h95, hb, hbe, hf, pyOrStr]
  · simp [validate_sender, h9499, hb, hbe, hf]
  · simp [validate_sender, h9501, hb, hbe, hf, pyOrStr]
  · simp [validate_sender, hb, hbe, hf]

/-- C10: a blank or absent query, or an empty pool, makes both AI name
matchers return no match, raise nothing, and perform no backend call,
whatever response the backend would have given (for the time-entry
server's copy, with its module-level client configured, since an
unconfigured client raises its own configuration error first). -/
theorem ai_matcher_blank_or_empty_returns_none (ai : AIOutcome NameResp)
    (q : Option (List Char)) (users : List User)
    (h : isBlankOpt q = true ∨ users = []) :
    match_user_name ai q users = (.ok none, false)
    ∧ ai_match_user_name true ai q users = (.ok none, false) := by
  rcases h with h | h
  · constructor
    · simp [match_user_name, h]
    · simp [ai_match_user_name, h]
  · subst h
    constructor
    · simp [match_user_name, isBlankOpt]
    · simp [ai_match_user_name]

/-- C10 witness: concrete whitespace-only query and concrete empty pool. -/
theorem ai_matcher_blank_or_empty_returns_none_witness :
    (match_user_name (.ok ⟨true, 1, some (cl "A"), some (cl "a@x.com")⟩)
        (some (cl "   ")) [⟨cl "A", cl "a@x.com"⟩] = (.ok none, false))
    ∧ (match_user_name (.ok ⟨true, 1, some (cl "A"), some (cl "a@x.com")⟩)
        (some (cl "zaki")) [] = (.ok none, false)) := by
  constructor
  · exact (ai_matcher_blank_or_empty_returns_none _ _ _ (Or.inl (by decide))).1
  · exact (ai_matcher_blank_or_empty_returns_none _ _ _ (Or.inr rfl)).1

/-- C4: for every pool and every backend behaviour, a blank or absent
sender email makes validate_sender raise the mandatory-email validation
error with no backend call; the result does not depend on the pool or on
the backend, so neither the email scan nor the AI consistency check is
reached. -/
theorem validate_sender_blank_email_rejected (ai : AIOutcome SenderResp)
    (sender_name : Option (List Char)) (sender_email : Option (List Char))
    (users : List User) (h : isBlankOpt sender_email = true) :
    validate_sender ai sender_name sender_email users
      = (.error .emailRequired, false) := by
  simp [validate_sender, h]

/-- C4 witness: concrete whitespace-only sender email, with a nonempty
pool and an available backend acceptance that are both ignored. -/
theorem validate_sender_blank_email_rejected_witness :
    validate_sender (.ok ⟨true, 1, none, none⟩) (some (cl "Ryan"))
        (some (cl "  ")) [⟨cl "Ryan Botindari", cl "ryan@x.com"⟩]
      = (.error .emailRequired, false) :=
  validate_sender_blank_email_rejected _ _ _ _ (by decide)

/-- C5: when the sender email is present and found by the deterministic
scan and a sender name was supplied, a backend exception and an
unparseable backend response both make validate_sender return the
email-matched identity (with the backend having been called), instead of
raising. -/
theorem validate_sender_graceful_degradation (sender_name : Option (List Char))
    (sender_email : Option (List Char)) (users : List User) (byEmail : User)
    (hne : isBlankOpt sender_email = false)
    (hname : isBlankOpt sender_name = false)
    (hfound : users.find?
        (fun u => pyLowerStrip u.email == pyLowerStrip (sender_email.getD []))
      = some byEmail) :
    validate_sender .backendError sender_name sender_email users
      = (.ok byEmail, true)
    ∧ validate_sender .parseError sender_name sender_email users
      = (.ok byEmail, true) := by
  constructor <;> simp [validate_sender, hne, hname, hfound]

/-- C5 witness: concrete pool in which the sender email is found while the
consistency backend fails both ways. -/
theorem validate_sender_graceful_degradation_witness :
    validate_sender .backendError (some (cl "Ryan")) (some (cl "Ryan@X.com"))
        [⟨cl "Zaki Quereshy", cl "zaki@x.com"⟩, ⟨cl "Ryan Botindari", cl "ryan@x.com"⟩]
      = (.ok ⟨cl "Ryan Botindari", cl "ryan@x.com"⟩, true)
    ∧ validate_sender .parseError (some (cl "Ryan")) (some (cl "Ryan@X.com"))
        [⟨cl "Zaki Quereshy", cl "zaki@x.com"⟩, ⟨cl "Ryan Botindari", cl "ryan@x.com"⟩]
      = (.ok ⟨cl "Ryan Botindari", cl "ryan@x.com"⟩, true) :=
  validate_sender_graceful_degradation _ _ _ _ (by decide) (by decide) (by decide)

/-- C6: on every parsed backend response the extraction gateway's
missing_fields is exactly the locally recomputed list over the four
required attributes of that response, and the backend's self-reported
missing_fields list is immaterial (any two self-reports give identical
results); a blank or absent query yields the all-missing record, with
missing_fields naming exactly date, client, description and hours, with
no error and no backend call, whatever the backend would have answered;
and the time-entry server's copy of the gateway (with its client
configured) agrees with the helper on every input. -/
theorem extract_missing_fields_recomputed (r : ExtractResp)
    (m : Option (List (List Char))) (q : Option (List Char))
    (hq : isBlankOpt q = false) :
    validate_and_extract_time_entry (.ok r) q
      = (.ok ⟨r.date, r.client, r.description, r.hours, r.project, r.task,
          recomputeMissing r.date r.client r.description r.hours⟩, true)
    ∧ validate_and_extract_time_entry (.ok { r with missing_fields := m }) q
      = validate_and_extract_time_entry (.ok r) q
    ∧ (∀ (ai : AIOutcome ExtractResp) (qb : Option (List Char)),
        isBlankOpt qb = true →
        validate_and_extract_time_entry ai qb
          = (.ok ⟨none, none, none, none, none, none,
              [cl "date", cl "client", cl "description", cl "hours"]⟩, false))
    ∧ (∀ (ai : AIOutcome ExtractResp) (q2 : Option (List Char)),
        ai_extract_time_entry true ai q2 = validate_and_extract_time_entry ai q2) := by
  refine ⟨?_, ?_, ?_, ?_⟩
  · simp [validate_and_extract_time_entry, hq]
  · simp [validate_and_extract_time_entry, hq]
  · intro ai qb hqb
    simp [validate_and_extract_time_entry, hqb, requiredFields]
  · intro ai q2
    simp [ai_extract_time_entry]

/-- C6 witness: a backend response whose self-reported missing_fields
contradicts the recomputation in both directions (it omits the truly
missing hours and claims the present date is missing): the result lists
exactly hours, and swapping the self-report for another changes
nothing. -/
theorem extract_missing_fields_recomputed_witness :
    validate_and_extract_time_entry
        (.ok ⟨some (cl "2026-01-03"), some (cl "Arvaya Internal"),
          some (cl "backend work"), none, none, none, some [cl "date"]⟩)
        (some (cl "worked for Arvaya Internal on 1/3/2026"))
      = (.ok ⟨some (cl "2026-01-03"), some (cl "Arvaya Internal"),
          some (cl "backend work"), none, none, none, [cl "hours"]⟩, true)
    ∧ validate_and_extract_time_entry
        (.ok ⟨some (cl "2026-01-03"), some (cl "Arvaya Internal"),
          some (cl "backend work"), none, none, none, some [cl "date"]⟩)
        (some (cl "worked for Arvaya Internal on 1/3/2026"))
      = validate_and_extract_time_entry
        (.ok ⟨some (cl "2026-01-03"), some (cl "Arvaya Internal"),
          some (cl "backend work"), none, none, none, none⟩)
        (some (cl "worked for Arvaya Internal on 1/3/2026"))
    ∧ validate_and_extract_time_entry .backendError (some (cl "   "))
      = (.ok ⟨none, none, none, none, none, none,
          [cl "date", cl "client", cl "description", cl "hours"]⟩, false) := by
  have h := extract_missing_fields_recomputed
    ⟨some (cl "2026-01-03"), some (cl "Arvaya Internal"), some (cl "backend work"),
      none, none, none, none⟩
    (some [cl "date"])
    (some (cl "worked for Arvaya Internal on 1/3/2026")) (by decide)
  refine ⟨?_, ?_, h.2.2.1 .backendError (some (cl "   ")) (by decide)⟩
  · have h2 := h.2.1
    simp only at h2
    rw [h2, h.1]
    simp [recomputeMissing, strTruthy, cl]
  · have h2 := h.2.1
    simp only at h2
    exact h2

/-- C9: book_meeting raises the invalid-datetime validation error when
either datetime string fails to parse, and the end-not-after-start
validation error when the parsed end is at or before the parsed start,
and in all three cases the provider-call trace is empty: no token fetch,
no user-list fetch and no event creation has happened. -/
theorem book_meeting_validates_before_provider (env : BookEnv)
    (user_email subject start_datetime end_datetime sender_name : List Char)
    (attendees : List (List Char)) (body : List Char) :
    (env.parseDT start_datetime = none →
      book_meeting env user_email subject start_datetime end_datetime sender_name
          attendees body
        = (.error .invalidDatetimeFormat, []))
    ∧ (∀ s, env.parseDT start_datetime = some s → env.parseDT end_datetime = none →
      book_meeting env user_email subject start_datetime end_datetime sender_name
          attendees body
        = (.error .invalidDatetimeFormat, []))
    ∧ (∀ s e, env.parseDT start_datetime = some s →
        env.parseDT end_datetime = some e → e ≤ s →
      book_meeting env user_email subject start_datetime end_datetime sender_name
          attendees body
        = (.error .endNotAfterStart, [])) := by
  refine ⟨?_, ?_, ?_⟩
  · intro h
    simp [book_meeting, h]
  · intro s hs he
    simp [book_meeting, hs, he]
  · intro s e hs he hle
    simp [book_meeting, hs, he, hle]

/-- C9 witness: an environment whose parser accepts both strings with the
same timestamp, so end equals start: the call fails with the
end-not-after-start error and an empty provider trace, even though the
environment could have served users and ids. -/
theorem book_meeting_validates_before_provider_witness :
    book_meeting
        ⟨fun _ => some 1700000000, [⟨cl "Ryan Botindari", cl "ryan@x.com"⟩],
          fun _ => some (cl "uid-1")⟩
        (cl "ryan@x.com") (cl "standup") (cl "2026-01-03T09:00:00")
        (cl "2026-01-03T09:00:00") (cl "Ryan Botindari") [] []
      = (.error .endNotAfterStart, []) :=
  (book_meeting_validates_before_provider _ _ _ _ _ _ _ _).2.2
    1700000000 1700000000 rfl rfl (le_refl _)

/-- The items worker is pointwise sanitize_unicode. -/
theorem sanitizeItems_eq_map : ∀ xs : List PyValue,
    sanitizeItems xs = xs.map sanitize_unicode
  | [] => rfl
  | x :: xs => by simp [sanitizeItems, sanitizeItems_eq_map xs]

/-- The entries worker is pointwise sanitize_unicode on keys and values. -/
theorem sanitizeEntries_eq_map : ∀ es : List (PyValue × PyValue),
    sanitizeEntries es
      = es.map fun kv => (sanitize_unicode kv.1, sanitize_unicode kv.2)
  | [] => rfl
  | (k, v) :: es => by simp [sanitizeEntries, sanitizeEntries_eq_map es]

/-- Pointwise specification of the character replacement. -/
theorem forall₂_sanitizeChar : ∀ s : List Char,
    List.Forall₂
      (fun a b => (a.toNat ≤ 255 → b = a) ∧ (255 < a.toNat → b = '?'))
      s (s.map sanitizeChar)
  | [] => List.Forall₂.nil
  | c :: s =>
    List.Forall₂.cons
      ⟨fun h => by simp [sanitizeChar, h],
       fun h => by simp [sanitizeChar, Nat.not_le.mpr h]⟩
      (forall₂_sanitizeChar s)

mutual
/-- Every string reachable at any depth is sanitized character-wise. -/
theorem allStrings_sanitize (v : PyValue) :
    allStrings (sanitize_unicode v)
      = (allStrings v).map (List.map sanitizeChar) := by
  cases v with
  | str s => simp [sanitize_unicode, allStrings]
  | intV n => simp [sanitize_unicode, allStrings]
  | floatV q => simp [sanitize_unicode, allStrings]
  | boolV b => simp [sanitize_unicode, allStrings]
  | noneV => simp [sanitize_unicode, allStrings]
  | list xs => simp [sanitize_unicode, allStrings, allStringsItems_sanitize xs]
  | tuple xs => simp [sanitize_unicode, allStrings, allStringsItems_sanitize xs]
  | dict es => simp [sanitize_unicode, allStrings, allStringsEntries_sanitize es]

/-- allStrings_sanitize for list and tuple items. -/
theorem allStringsItems_sanitize (xs : List PyValue) :
    allStringsItems (sanitizeItems xs)
      = (allStringsItems xs).map (List.map sanitizeChar) := by
  cases xs with
  | nil => simp [sanitizeItems, allStringsItems]
  | cons x xs =>
    simp [sanitizeItems, allStringsItems, allStrings_sanitize x,
      allStringsItems_sanitize xs]

/-- allStrings_sanitize for dict entries. -/
theorem allStringsEntries_sanitize (es : List (PyValue × PyValue)) :
    allStringsEntries (sanitizeEntries es)
      = (allStringsEntries es).map (List.map sanitizeChar) := by
  cases es with
  | nil => simp [sanitizeEntries, allStringsEntries]
  | cons kv es =>
    cases kv with
    | mk k v =>
      simp [sanitizeEntries, allStringsEntries, allStrings_sanitize k,
        allStrings_sanitize v, allStringsEntries_sanitize es]
end

/-- C7: sanitize_unicode rewrites every string character-for-character
(preserving length, keeping codepoints at most 255, replacing larger
codepoints with the placeholder glyph), and does so for every string at
any nesting depth; it recurses structurally through lists, tuples and
dict entries (keys and values alike) preserving the container shape, and
leaves integers, rationals, booleans and None unchanged. -/
theorem sanitize_unicode_spec :
    (∀ s : List Char, ∃ t, sanitize_unicode (.str s) = .str t
      ∧ t.length = s.length
      ∧ List.Forall₂
          (fun a b => (a.toNat ≤ 255 → b = a) ∧ (255 < a.toNat → b = '?'))
          s t)
    ∧ (∀ v : PyValue, allStrings (sanitize_unicode v)
        = (allStrings v).map (List.map sanitizeChar))
    ∧ (∀ xs, sanitize_unicode (.list xs) = .list (xs.map sanitize_unicode))
    ∧ (∀ xs, sanitize_unicode (.tuple xs) = .tuple (xs.map sanitize_unicode))
    ∧ (∀ es, sanitize_unicode (.dict es)
        = .dict (es.map fun kv => (sanitize_unicode kv.1, sanitize_unicode kv.2)))
    ∧ (∀ n, sanitize_unicode (.intV n) = .intV n)
    ∧ (∀ q, sanitize_unicode (.floatV q) = .floatV q)
    ∧ (∀ b, sanitize_unicode (.boolV b) = .boolV b)
    ∧ sanitize_unicode .noneV = .noneV := by
  refine ⟨?_, allStrings_sanitize, ?_, ?_, ?_, ?_, ?_, ?_, rfl⟩
  · intro s
    exact ⟨s.map sanitizeChar, by simp [sanitize_unicode],
      by simp, forall₂_sanitizeChar s⟩
  · intro xs
    simp [sanitize_unicode, sanitizeItems_eq_map]
  · intro xs
    simp [sanitize_unicode, sanitizeItems_eq_map]
  · intro es
    simp [sanitize_unicode, sanitizeEntries_eq_map]
  · intro n
    simp [sanitize_unicode]
  · intro q
    simp [sanitize_unicode]
  · intro b
    simp [sanitize_unicode]

/-- Splitting an all-whitespace tail only flushes the accumulator. -/
theorem pySplitAux_allSpace : ∀ t : List Char,
    (∀ c ∈ t, pyIsSpace c = true) → ∀ acc,
    pySplitAux t acc = if acc.isEmpty then [] else [acc.reverse]
  | [], _, acc => rfl
  | c :: t, h, acc => by
    have hc : pyIsSpace c = true := h c (by simp)
    have ht : ∀ x ∈ t, pyIsSpace x = true := fun x hx => h x (by simp [hx])
    cases hacc : acc.isEmpty with
    | true =>
      have : acc = [] := by cases acc <;> simp_all
      subst this
      simp [pySplitAux, hc, pySplitAux_allSpace t ht []]
    | false =>
      simp [pySplitAux, hc, hacc, pySplitAux_allSpace t ht []]

/-- Appending an all-whitespace tail does not change the split. -/
theorem pySplitAux_append_space : ∀ (s t : List Char),
    (∀ c ∈ t, pyIsSpace c = true) → ∀ acc,
    pySplitAux (s ++ t) acc = pySplitAux s acc
  | [], t, h, acc => by
    simp [pySplitAux, pySplitAux_allSpace t h acc]
  | c :: s, t, h, acc => by
    by_cases hc : pyIsSpace c = true
    · cases hacc : acc.isEmpty with
      | true =>
        simp [pySplitAux, hc, hacc, pySplitAux_append_space s t h []]
      | false =>
        simp [pySplitAux, hc, hacc, pySplitAux_append_space s t h []]
    · simp [pySplitAux, hc, pySplitAux_append_space s t h (c :: acc)]

/-- Dropping leading whitespace does not change the split. -/
theorem pySplitAux_dropWhile : ∀ s : List Char,
    pySplitAux (s.dropWhile pyIsSpace) [] = pySplitAux s []
  | [] => rfl
  | c :: s => by
    by_cases hc : pyIsSpace c = true
    · simp [List.dropWhile, hc, pySplitAux, pySplitAux_dropWhile s]
    · simp [List.dropWhile, hc]

/-- Python's strip is invisible to a subsequent split. -/
theorem pySplit_pyStrip (s : List Char) : pySplit (pyStrip s) = pySplit s := by
  unfold pySplit pyStrip
  set u := s.dropWhile pyIsSpace with hu
  have hdecomp : u = (u.reverse.dropWhile pyIsSpace).reverse
      ++ (u.reverse.takeWhile pyIsSpace).reverse := by
    have : u.reverse = u.reverse.takeWhile pyIsSpace
        ++ u.reverse.dropWhile pyIsSpace :=
      (List.takeWhile_append_dropWhile pyIsSpace u.reverse).symm
    calc u = u.reverse.reverse := by simp
    _ = (u.reverse.takeWhile pyIsSpace ++ u.reverse.dropWhile pyIsSpace).reverse := by
        rw [← this]
    _ = (u.reverse.dropWhile pyIsSpace).reverse
        ++ (u.reverse.takeWhile pyIsSpace).reverse := by
        rw [List.reverse_append]
  have hsp : ∀ c ∈ (u.reverse.takeWhile pyIsSpace).reverse, pyIsSpace c = true := by
    intro c hc
    rw [List.mem_reverse] at hc
    exact List.mem_takeWhile_imp hc
  calc pySplitAux (u.reverse.dropWhile pyIsSpace).reverse []
      = pySplitAux ((u.reverse.dropWhile pyIsSpace).reverse
          ++ (u.reverse.takeWhile pyIsSpace).reverse) [] := by
        rw [pySplitAux_append_space _ _ hsp]
    _ = pySplitAux u [] := by rw [← hdecomp]
    _ = pySplitAux s [] := pySplitAux_dropWhile s

/-- The deterministic normalization is determined by the lowercased
whitespace-tokenization. -/
theorem normalizeName_eq_of_tokens {q1 q2 : List Char}
    (h : pySplit (pyLower q1) = pySplit (pyLower q2)) :
    normalizeName q1 = normalizeName q2 := by
  unfold normalizeName
  rw [pySplit_pyStrip, pySplit_pyStrip, h]

/-- C8: two queries that differ only in letter case and in whitespace
(leading or trailing whitespace, or the width and kind of internal
whitespace runs) — captured as having identical lowercased
whitespace-tokenizations — are resolved identically by the deterministic
name resolver on every pool, so in particular a Resolved identity for one
is the same Resolved identity for the other. -/
theorem resolver_case_whitespace_invariance (users : List User)
    (q1 q2 : List Char) (h : pySplit (pyLower q1) = pySplit (pyLower q2)) :
    resolveUserByName users q1 = resolveUserByName users q2 := by
  unfold resolveUserByName
  rw [normalizeName_eq_of_tokens h]

/-- C8 witness: a query in shouting case with stray whitespace resolves
exactly like its tidy variant. -/
theorem resolver_case_whitespace_invariance_witness :
    resolveUserByName [⟨cl "Ryan Botindari", cl "ryan@x.com"⟩]
        (cl "  RYAN   Botindari ")
      = resolveUserByName [⟨cl "Ryan Botindari", cl "ryan@x.com"⟩]
        (cl "ryan botindari")
    ∧ resolveUserByName [⟨cl "Ryan Botindari", cl "ryan@x.com"⟩]
        (cl "ryan botindari")
      = some ⟨cl "Ryan Botindari", cl "ryan@x.com"⟩ :=
  ⟨resolver_case_whitespace_invariance _ _ _ (by decide), by decide⟩

/-- C3 counterexample: a pool in which the first substring match has a
whitespace-padded display name.  Both candidates are substring matches
for the query, neither is an exact match, and the second candidate's
normalized name is strictly longer, yet the resolver keeps the first
candidate, because the source compares the challenger's normalized
length against the incumbent's raw display-name length (7 for the padded
name), not its normalized length (3).  The spec-worded selection picks
the second candidate. -/
theorem resolve_longest_tiebreak_counterexample :
    resolveUserByName
        [⟨cl "  Bob  ", cl "bob@x.com"⟩, ⟨cl "Bobby", cl "bobby@x.com"⟩]
        (cl "bo")
      = some ⟨cl "  Bob  ", cl "bob@x.com"⟩
    ∧ specResolve
        [⟨cl "  Bob  ", cl "bob@x.com"⟩, ⟨cl "Bobby", cl "bobby@x.com"⟩]
        (cl "bo")
      = some ⟨cl "Bobby", cl "bobby@x.com"⟩
    ∧ (normalizeName (cl "Bobby")).length > (normalizeName (cl "  Bob  ")).length
    ∧ occursIn (normalizeName (cl "bo")) (normalizeName (cl "  Bob  ")) = true
    ∧ occursIn (normalizeName (cl "bo")) (normalizeName (cl "Bobby")) = true
    ∧ findExact (normalizeName (cl "bo"))
        [⟨cl "  Bob  ", cl "bob@x.com"⟩, ⟨cl "Bobby", cl "bobby@x.com"⟩]
      = none := by
  decide

/-- The exact pass is List.find? over the normalized-name test. -/
theorem findExact_eq_find? (q : List Char) : ∀ l : List User,
    findExact q l = l.find? (fun v => normalizeName v.name == q)
  | [] => rfl
  | u :: us => by
    rw [List.find?_cons]
    by_cases h : normalizeName u.name = q
    · simp [findExact, h]
    · have hb : (normalizeName u.name == q) = false := by simp [h]
      simp [findExact, h, hb, findExact_eq_find? q us]

/-- Under whitespace-normal display names the code's substring pass and
the spec's substring pass agree, for any admissible incumbent. -/
theorem substringPass_eq_specTieBreak (q : List Char) : ∀ (l : List User)
    (acc : Option User),
    (∀ u ∈ l, (normalizeName u.name).length = u.name.length) →
    (∀ t, acc = some t → (normalizeName t.name).length = t.name.length) →
    substringPass q l acc = specTieBreak q l acc
  | [], _, _, _ => rfl
  | u :: us, acc, hl, hacc => by
    have hu : (normalizeName u.name).length = u.name.length := hl u (by simp)
    have hus : ∀ v ∈ us, (normalizeName v.name).length = v.name.length :=
      fun v hv => hl v (by simp [hv])
    cases acc with
    | none =>
      by_cases hc : (occursIn q (normalizeName u.name)
          || occursIn (normalizeName u.name) q) = true
      · simp only [substringPass, specTieBreak, hc, if_true]
        exact substringPass_eq_specTieBreak q us (some u) hus
          (fun t ht => by cases ht; exact hu)
      · simp only [substringPass, specTieBreak, hc, if_false]
        exact substringPass_eq_specTieBreak q us none hus (fun t ht => by cases ht)
    | some t =>
      have ht : (normalizeName t.name).length = t.name.length := hacc t rfl
      by_cases hc : (occursIn q (normalizeName u.name)
          || occursIn (normalizeName u.name) q) = true
      · simp only [substringPass, specTieBreak, hc, if_true, ht]
        by_cases hlen : (normalizeName u.name).length > t.name.length
        · simp only [hlen, if_true]
          exact substringPass_eq_specTieBreak q us (some u) hus
            (fun w hw => by cases hw; exact hu)
        · simp only [hlen, if_false]
          exact substringPass_eq_specTieBreak q us (some t) hus
            (fun w hw => by cases hw; exact ht)
      · simp only [substringPass, specTieBreak, hc, if_false]
        exact substringPass_eq_specTieBreak q us (some t) hus
          (fun w hw => by cases hw; exact ht)

/-- C3 amended: the exact-match pass does run first and return the first
candidate whose normalized name equals the normalized query; and the
substring pass selects the candidate with the longest normalized name
(first-seen winning ties) provided every display name in the pool is
whitespace-normal (its normalized name is as long as the raw name, i.e.
no leading/trailing whitespace and no multi-character whitespace runs) —
in general the source compares the challenger's normalized length
against the incumbent's raw display-name length, which the
counterexample shows can keep a shorter-normalized candidate. -/
theorem resolve_exact_then_substring_amended (users : List User)
    (query : List Char) :
    (∀ u ∈ users, normalizeName u.name = normalizeName query →
      resolveUserByName users query
        = users.find? (fun v => normalizeName v.name == normalizeName query))
    ∧ ((∀ u ∈ users, (normalizeName u.name).length = u.name.length) →
      resolveUserByName users query = specResolve users query) := by
  constructor
  · intro u hu hx
    have hf := findExact_eq_find? (normalizeName query) users
    have hex : ∃ w, users.find?
        (fun v => normalizeName v.name == normalizeName query) = some w := by
      rw [← Option.isSome_iff_exists, List.find?_isSome]
      exact ⟨u, hu, by simp [hx]⟩
    obtain ⟨w, hw⟩ := hex
    simp only [resolveUserByName, hf, hw]
  · intro hws
    simp only [resolveUserByName, specResolve]
    cases hfe : findExact (normalizeName query) users with
    | some u => rfl
    | none =>
      exact substringPass_eq_specTieBreak (normalizeName query) users none hws
        (fun t ht => by cases ht)

/-- C3 witness: on a whitespace-normal pool the resolver agrees with the
spec-worded selection (picking the longer "Jonathan Smith" over "Jon"
for the shared substring query), and with an exact match present the
first exactly matching candidate is returned. -/
theorem resolve_exact_then_substring_amended_witness :
    resolveUserByName [⟨cl "Jon", cl "jon@x.com"⟩, ⟨cl "Jonathan Smith", cl "jsmith@x.com"⟩]
        (cl "jon")
      = specResolve [⟨cl "Jon", cl "jon@x.com"⟩, ⟨cl "Jonathan Smith", cl "jsmith@x.com"⟩]
        (cl "jon")
    ∧ resolveUserByName [⟨cl "Ryan Smith", cl "rs@x.com"⟩, ⟨cl "Ryan Botindari", cl "rb@x.com"⟩]
        (cl "ryan botindari")
      = ([⟨cl "Ryan Smith", cl "rs@x.com"⟩, ⟨cl "Ryan Botindari", cl "rb@x.com"⟩] :
          List User).find?
          (fun v => normalizeName v.name == normalizeName (cl "ryan botindari")) :=
  ⟨(resolve_exact_then_substring_amended _ _).2 (by decide),
   (resolve_exact_then_substring_amended _ _).1
     ⟨cl "Ryan Botindari", cl "rb@x.com"⟩ (by decide) (by decide)⟩
